import Mathlib

/-!
Shallow embedding of the GithubETL repository (config.py, main.py,
src/extractor.py, src/transformer.py, src/loader.py) and proofs about it.

Modelling conventions:
* A JSON / pandas cell value is a Value; missing cells and NaN are both
  Value.prim Prim.null (pandas inserts NaN for keys absent from a record).
* A pandas DataFrame is a Frame: a column list plus rows as association
  lists; column lookups on a missing column (a Python KeyError) are modelled
  by Except.error results.
* HTTP traffic is an oracle: fetch_page takes a map from attempt number to
  the response of that attempt; fetch_one_date takes the list of successful
  page payloads, one entry per page, where an absent or empty entry makes
  fetch_page return the empty list exactly as in the source.
* time.sleep is not executed; the sleeps a run would perform are returned
  as data (the list of backoff durations, and the count of inter-page
  sleeps).
* The shared module-level dictionaries DEFAULT_Q_FILTERS and
  DEFAULT_API_PARAMS are modelled with an explicit store of dictionaries
  addressed by numeric references, so that dict.copy followed by key
  assignment is distinguishable from in-place mutation of the shared
  dictionary.
-/

/-- Scalar cell values: null stands for both Python None and pandas NaN/NaT;
dt is the result of a successful pd.to_datetime conversion of a string. -/
inductive Prim where
  | null : Prim
  | bool : Bool → Prim
  | int : Int → Prim
  | str : String → Prim
  | rat : Rat → Prim
  | dt : String → Prim
  deriving DecidableEq, Repr

/-- A cell value: a scalar, or a nested mapping (the owner field of a raw
repository record, whose own values are scalars). -/
inductive Value where
  | prim : Prim → Value
  | dict : List (String × Prim) → Value
  deriving DecidableEq, Repr

def vnull : Value := Value.prim Prim.null

def vbool (b : Bool) : Value := Value.prim (Prim.bool b)

def vint (n : Int) : Value := Value.prim (Prim.int n)

def vstr (s : String) : Value := Value.prim (Prim.str s)

/-- One record: a raw API item or one DataFrame row, as an association list. -/
abbrev Row := List (String × Value)

/-- Reading a field of a record; absent fields read as NaN, as when pandas
builds a DataFrame from records with differing keys. -/
def getVal (r : Row) (k : String) : Value := (r.lookup k).getD vnull

/-- Assigning a field of a record: an existing key is updated in place, a
new key is appended, matching Python dict / DataFrame column assignment. -/
def setVal (r : Row) (k : String) (v : Value) : Row :=
  match r with
  | [] => [(k, v)]
  | (k0, v0) :: rest => if k0 = k then (k0, v) :: rest else (k0, v0) :: setVal rest k v

/-- The pandas Series.str.get accessor: indexes into a mapping cell, giving
NaN for a missing key and for any non-indexable cell. -/
def strGet (v : Value) (k : String) : Value :=
  match v with
  | Value.dict d => Value.prim ((d.lookup k).getD Prim.null)
  | _ => vnull

/-- A pandas DataFrame: ordered column names plus rows. -/
structure Frame where
  cols : List String
  rows : List Row
  deriving DecidableEq, Repr

/-- DataFrame.empty: true when either axis has length zero. -/
def isEmptyF (fr : Frame) : Bool := fr.rows.isEmpty || fr.cols.isEmpty

/-- First-occurrence deduplication of a key list, used for the column order
a DataFrame infers from a list of records. -/
def dedupFirst (ks : List String) (seen : List String) : List String :=
  match ks with
  | [] => []
  | k :: rest => if k ∈ seen then dedupFirst rest seen else k :: dedupFirst rest (k :: seen)

/-- pd.DataFrame applied to a list of records: columns in order of first
appearance, rows kept as the records themselves. -/
def mkFrame (items : List Row) : Frame :=
  { cols := dedupFirst (items.flatMap (fun r => r.map Prod.fst)) [], rows := items }

/-! ## src/extractor.py -/

/-- A value of the query-filter / api-params dictionaries in extractor.py:
a string, an integer, or a list of strings (the has filter). -/
inductive PVal where
  | s : String → PVal
  | i : Int → PVal
  | l : List String → PVal
  deriving DecidableEq, Repr

/-- Python str() of a dictionary value as used in the f-strings of
api_query_builder (only strings and integers ever reach the params part). -/
def pvalStr : PVal → String
  | PVal.s v => v
  | PVal.i n => toString n
  | PVal.l xs => toString xs

def BASE_URL : String := "https://api.github.com/search/repositories"

def DEFAULT_Q_FILTERS : List (String × PVal) :=
  [("is", PVal.s "public"), ("archived", PVal.s "false"), ("size", PVal.s ">=500"),
   ("stars", PVal.s ">=1"), ("forks", PVal.s ">=1"), ("has", PVal.l ["readme", "license"])]

def DEFAULT_API_PARAMS : List (String × PVal) :=
  [("sort", PVal.s "created"), ("order", PVal.s "desc"), ("per_page", PVal.i 100)]

/-- The for-loop of api_query_builder that accumulates filter_parts: a list
value appends one key:item clause per element, a scalar appends one
key:value clause. -/
def buildFilterParts (query_filters : List (String × PVal)) (acc : List String) : List String :=
  match query_filters with
  | [] => acc
  | kv :: rest =>
    match kv.2 with
    | PVal.l items =>
        buildFilterParts rest (items.foldl (fun acc2 item => acc2 ++ [kv.1 ++ ":" ++ item]) acc)
    | v => buildFilterParts rest (acc ++ [kv.1 ++ ":" ++ pvalStr v])

/-- api_query_builder from src/extractor.py. -/
def api_query_builder (base_url : String) (query_filters : List (String × PVal))
    (api_params : List (String × PVal)) : String :=
  let filter_parts := buildFilterParts query_filters []
  let filters := String.intercalate "+" filter_parts
  let params := String.intercalate "&" (api_params.map (fun kv => kv.1 ++ "=" ++ pvalStr kv.2))
  base_url ++ "?q=" ++ filters ++ "&" ++ params

/-- The clauses contributed by one filter entry (specification-side
companion of buildFilterParts, used to state claim C5). -/
def clauseOf (kv : String × PVal) : List String :=
  match kv.2 with
  | PVal.l items => items.map (fun item => kv.1 ++ ":" ++ item)
  | v => [kv.1 ++ ":" ++ pvalStr v]

/-- What one fetch attempt observes after response.json(): the body is not a
mapping, is a mapping without an items key, or is a mapping carrying an
items list. -/
inductive Payload where
  | notMapping : Payload
  | missingItems : Payload
  | withItems : List Row → Payload
  deriving DecidableEq, Repr

/-- Outcome of one HTTP attempt: a 2xx response with a JSON body, an HTTP
error status from raise_for_status, or any other exception from the request
machinery (timeouts, connection errors). -/
inductive Resp where
  | ok : Payload → Resp
  | httpError : Nat → Resp
  | otherError : Resp
  deriving DecidableEq, Repr

/-- Observable result of fetch_page: a returned item list, or a re-raised
HTTP error carrying its status. -/
inductive FetchResult where
  | items : List Row → FetchResult
  | raised : Nat → FetchResult
  deriving DecidableEq, Repr

/-- The retry loop of fetch_page. retry is the 1-based attempt counter of
the source; fuel counts the remaining loop iterations (max_retries at the
start); the fuel-0 result is the unreachable trailing return of the source.
The second component is the list of backoff sleeps performed; a sleep of
backoff ^ retry happens after a retryable failure that is not the last
allowed attempt. -/
def fetchPageGo (resps : Nat → Resp) (max_retries backoff : Nat) (retry fuel : Nat) :
    FetchResult × List Nat :=
  match fuel with
  | 0 => (FetchResult.items [], [])
  | fuel + 1 =>
    match resps retry with
    | Resp.ok Payload.notMapping => (FetchResult.items [], [])
    | Resp.ok Payload.missingItems => (FetchResult.items [], [])
    | Resp.ok (Payload.withItems l) => (FetchResult.items l, [])
    | Resp.httpError st =>
      if st = 422 then (FetchResult.items [], [])
      else if retry = max_retries then (FetchResult.raised st, [])
      else
        let r := fetchPageGo resps max_retries backoff (retry + 1) fuel
        (r.1, backoff ^ retry :: r.2)
    | Resp.otherError => (FetchResult.items [], [])

/-- fetch_page from src/extractor.py, with the network abstracted as a map
from attempt number to that attempt's response. A body that is not a
mapping hits the AttributeError path of data.get, a mapping without items
hits the ValueError path; both return an empty list without sleeping, as
does any other unexpected exception. An HTTP 422 returns an empty list; any
other HTTP error is retried with backoff and re-raised once
retry = max_retries. -/
def fetch_page (resps : Nat → Resp) (max_retries backoff : Nat) : FetchResult × List Nat :=
  fetchPageGo resps max_retries backoff 1 max_retries

/-- A heap of Python dictionaries addressed by allocation order, used to
model aliasing of the shared default dictionaries. -/
abbrev Store := List (List (String × PVal))

/-- Python dict key assignment: update in place or append. -/
def dictSet (d : List (String × PVal)) (k : String) (v : PVal) : List (String × PVal) :=
  match d with
  | [] => [(k, v)]
  | (k0, v0) :: rest => if k0 = k then (k0, v) :: rest else (k0, v0) :: dictSet rest k v

/-- dict.copy(): allocate a fresh dictionary holding the same entries,
returning the updated store and the new reference. -/
def copyDict (st : Store) (r : Nat) : Store × Nat := (st ++ [st.getD r []], st.length)

/-- Assignment d[k] = v on the dictionary at reference r. -/
def setItem (st : Store) (r : Nat) (k : String) (v : PVal) : Store :=
  st.set r (dictSet (st.getD r []) k v)

/-- The while-True loop of fetch_one_date. Each iteration copies
DEFAULT_API_PARAMS (reference apRef), sets its page key, builds the URL from
the date-specialized filter dictionary (reference qo), and fetches the page;
pages lists the item list each successive fetch returns, an exhausted list
standing for an empty response. An empty page breaks the loop; a non-empty
page is appended, the page counter advances, and one inter-page sleep
happens. Returns the items, the inter-page sleep count, the URLs fetched,
and the final store. -/
def fetchOneDateLoop (apRef qo : Nat) (st : Store) (page : Nat) (pages : List (List Row)) :
    List Row × Nat × List String × Store :=
  let c := copyDict st apRef
  let st2 := setItem c.1 c.2 "page" (PVal.i (page : Int))
  let url := api_query_builder BASE_URL (st2.getD qo []) (st2.getD c.2 [])
  match pages with
  | [] => ([], 0, [url], st2)
  | p :: rest =>
    if p = [] then ([], 0, [url], st2)
    else
      let r := fetchOneDateLoop apRef qo st2 (page + 1) rest
      (p ++ r.1, r.2.1 + 1, url :: r.2.2.1, r.2.2.2)

/-- fetch_one_date from src/extractor.py: copy DEFAULT_Q_FILTERS (reference
qfRef in the store), set its created key to the target date, then run the
pagination loop starting at page 1. -/
def fetch_one_date (st0 : Store) (qfRef apRef : Nat) (date_value : String)
    (pages : List (List Row)) : List Row × Nat × List String × Store :=
  let c := copyDict st0 qfRef
  let st2 := setItem c.1 c.2 "created" (PVal.s date_value)
  fetchOneDateLoop apRef c.2 st2 1 pages

/-! ## src/transformer.py -/

def required_cols : List String :=
  ["id", "name", "description", "created_at", "updated_at", "pushed_at",
   "size", "stargazers_count", "watchers_count", "language", "forks",
   "watchers", "score", "user", "user_type", "user_id"]

/-- The boolean mask of filter_columns: archived == False and
disabled == False and is_template == False (NaN compares unequal to False,
so records with a missing flag are filtered out, as in pandas). -/
def passFlags (r : Row) : Bool :=
  decide (getVal r "archived" = vbool false ∧ getVal r "disabled" = vbool false ∧
    getVal r "is_template" = vbool false)

/-- The three owner-flattening column assignments of filter_columns. -/
def ownerExtend (r : Row) : Row :=
  let r1 := setVal r "user" (strGet (getVal r "owner") "login")
  let r2 := setVal r1 "user_type" (strGet (getVal r1 "owner") "type")
  setVal r2 "user_id" (strGet (getVal r2 "owner") "id")

/-- filter_columns from src/transformer.py. Reading a column that the frame
does not carry is a Python KeyError, modelled as an error result; the
checks appear in the order pandas would evaluate the reads. The final
frame keeps, of required_cols, those columns present after the owner
columns are added, and its rows are the projections onto those columns. -/
def filter_columns (fr : Frame) : Except String Frame :=
  if "archived" ∈ fr.cols then
    if "disabled" ∈ fr.cols then
      if "is_template" ∈ fr.cols then
        if "owner" ∈ fr.cols then
          let filtered := fr.rows.filter passFlags
          let rows2 := filtered.map ownerExtend
          let cols2 := fr.cols ++ (["user", "user_type", "user_id"].filter
            (fun c => decide (¬ c ∈ fr.cols)))
          let final_cols := required_cols.filter (fun c => decide (c ∈ cols2))
          Except.ok { cols := final_cols,
                      rows := rows2.map (fun r => final_cols.map (fun c => (c, getVal r c))) }
        else Except.error "KeyError: owner"
      else Except.error "KeyError: is_template"
    else Except.error "KeyError: disabled"
  else Except.error "KeyError: archived"

/-- drop_duplicates(subset=[id]) with the default keep=first: a row whose id
value was already seen is dropped. -/
def dedupeById (rows : List Row) (seen : List Value) : List Row :=
  match rows with
  | [] => []
  | r :: rest =>
    if getVal r "id" ∈ seen then dedupeById rest seen
    else r :: dedupeById rest (getVal r "id" :: seen)

/-- The row predicate of dropna(subset=[id, created_at, user_id,
user_type]). -/
def dropnaRow (r : Row) : Bool :=
  decide (getVal r "id" ≠ vnull ∧ getVal r "created_at" ≠ vnull ∧
    getVal r "user_id" ≠ vnull ∧ getVal r "user_type" ≠ vnull)

/-- The numeric reading of a cell, as used by pandas mean (null and
non-numeric cells are skipped). -/
def toRatQ (v : Value) : Option Rat :=
  match v with
  | Value.prim (Prim.int n) => some (n : Rat)
  | Value.prim (Prim.rat q) => some q
  | _ => none

/-- pandas mean of a list of cells: the mean of the numeric cells, NaN when
there are none. -/
def meanOf (vs : List Value) : Value :=
  let nums := vs.filterMap toRatQ
  if nums.isEmpty then vnull else Value.prim (Prim.rat (nums.sum / (nums.length : Rat)))

/-- groupby(user_id)[size].transform(mean) evaluated at one row: the mean
size over the rows sharing that row's user_id. -/
def groupMean (rows : List Row) (uid : Value) : Value :=
  meanOf ((rows.filter (fun r2 => decide (getVal r2 "user_id" = uid))).map
    (fun r2 => getVal r2 "size"))

/-- Series.fillna at one row: replace a null size with the given value. -/
def fillSizeRow (x : Value) (r : Row) : Row :=
  if getVal r "size" = vnull then setVal r "size" x else r

/-- The first size backfill of handle_nulls_and_dupes: fill each null size
with the mean size of that row's user (computed on the incoming rows). -/
def fillSizeGroup (rows : List Row) : List Row :=
  rows.map (fun r => fillSizeRow (groupMean rows (getVal r "user_id")) r)

/-- Both size backfills: the per-user mean, then the global mean of the
size column as it stands after the first fill. -/
def fillSize (rows : List Row) : List Row :=
  (fillSizeGroup rows).map
    (fun r => fillSizeRow (meanOf ((fillSizeGroup rows).map (fun r2 => getVal r2 "size"))) r)

/-- language fillna("Unknown") at one row. -/
def fillLanguageRow (r : Row) : Row :=
  if getVal r "language" = vnull then setVal r "language" (vstr "Unknown") else r

def fillLanguage (rows : List Row) : List Row := rows.map fillLanguageRow

/-- handle_nulls_and_dupes from src/transformer.py: deduplicate on id
keeping the first occurrence, drop rows with a null in the four key
columns, backfill size (per-user mean, then global mean), backfill
language. Column accesses on missing columns are KeyErrors. -/
def handle_nulls_and_dupes (df : Frame) : Except String Frame :=
  if "id" ∈ df.cols then
    if "created_at" ∈ df.cols then
      if "user_id" ∈ df.cols then
        if "user_type" ∈ df.cols then
          if "size" ∈ df.cols then
            if "language" ∈ df.cols then
              let deduped := dedupeById df.rows []
              let kept := deduped.filter dropnaRow
              Except.ok { df with rows := fillLanguage (fillSize kept) }
            else Except.error "KeyError: language"
          else Except.error "KeyError: size"
        else Except.error "KeyError: user_type"
      else Except.error "KeyError: user_id"
    else Except.error "KeyError: created_at"
  else Except.error "KeyError: id"

/-- pd.to_datetime on one cell: NaN becomes NaT (still null), a string
parses to a datetime; successful parsing is modelled as tagging. -/
def to_datetime (v : Value) : Value :=
  match v with
  | Value.prim Prim.null => vnull
  | Value.prim (Prim.str s) => Value.prim (Prim.dt s)
  | v => v

/-- The three to_datetime column assignments applied to one row. -/
def dtRow (r : Row) : Row :=
  let r1 := setVal r "created_at" (to_datetime (getVal r "created_at"))
  let r2 := setVal r1 "updated_at" (to_datetime (getVal r1 "updated_at"))
  setVal r2 "pushed_at" (to_datetime (getVal r2 "pushed_at"))

/-- datetime_columns_formatter from src/transformer.py: converts the three
timestamp columns when the frame is non-empty, otherwise returns it
untouched. -/
def datetime_columns_formatter (df : Frame) : Except String Frame :=
  if isEmptyF df then Except.ok df
  else
    if "created_at" ∈ df.cols then
      if "updated_at" ∈ df.cols then
        if "pushed_at" ∈ df.cols then Except.ok { df with rows := df.rows.map dtRow }
        else Except.error "KeyError: pushed_at"
      else Except.error "KeyError: updated_at"
    else Except.error "KeyError: created_at"

/-- transform from src/transformer.py. -/
def transform (items_list : List Row) : Except String Frame :=
  match filter_columns (mkFrame items_list) with
  | Except.error e => Except.error e
  | Except.ok df_raw =>
    if isEmptyF df_raw then Except.ok df_raw
    else
      match handle_nulls_and_dupes df_raw with
      | Except.error e => Except.error e
      | Except.ok df_deduped => datetime_columns_formatter df_deduped

/-! ## main.py -/

/-- pd.concat(ignore_index=True): union of the columns in order of
appearance, rows concatenated. -/
def concatFrames (fs : List Frame) : Frame :=
  { cols := dedupFirst (fs.flatMap (fun f => f.cols)) [],
    rows := fs.flatMap (fun f => f.rows) }

/-- The per-date loop of full_etl, with the Date Extractor and the
Transformer as collaborators: an empty daily batch is skipped before the
Transformer runs; an empty transformed frame is not collected. Returns the
list of batches handed to the Transformer and the collected frames, in
date order. -/
def full_etl_aux (extract : String → List Row) (transformF : List Row → Frame)
    (dates : List String) : List (List Row) × List Frame :=
  match dates with
  | [] => ([], [])
  | d :: rest =>
    let daily_batch := extract d
    if daily_batch = [] then full_etl_aux extract transformF rest
    else
      let daily_df := transformF daily_batch
      let r := full_etl_aux extract transformF rest
      (daily_batch :: r.1, if isEmptyF daily_df then r.2 else daily_df :: r.2)

/-- full_etl from main.py. The first component lists the arguments of the
Transformer invocations; the second lists the arguments of the Loader
invocations (the Loader runs once, on the concatenation of the collected
frames, unless nothing was collected or the concatenation is empty). -/
def full_etl (extract : String → List Row) (transformF : List Row → Frame)
    (fetch_dates : List String) : List (List Row) × List Frame :=
  let r := full_etl_aux extract transformF fetch_dates
  if r.2 = [] then (r.1, [])
  else
    let final_df := concatFrames r.2
    if isEmptyF final_df then (r.1, [])
    else (r.1, [final_df])

/-- Specification-side description of the batches that reach the
Transformer: the extracted batches of the dates, the empty ones dropped. -/
def extractedBatches (extract : String → List Row) (dates : List String) : List (List Row) :=
  (dates.map extract).filter (fun b => decide (b ≠ []))

/-- Specification-side description of the collected per-date fragments: the
transforms of the non-empty batches, the empty frames dropped. -/
def cleanedFrags (extract : String → List Row) (transformF : List Row → Frame)
    (dates : List String) : List Frame :=
  ((extractedBatches extract dates).map transformF).filter (fun f => !(isEmptyF f))

/-! ## Concrete inputs used by witnesses and counterexamples -/

def exResps1 : Nat → Resp :=
  fun i => if i ≤ 2 then Resp.httpError 500 else Resp.ok (Payload.withItems [[("id", vint 1)]])

def exResps2 : Nat → Resp := fun _ => Resp.httpError 422

def exResps4 : Nat → Resp := fun _ => Resp.httpError 500

def exStore3 : Store := [DEFAULT_Q_FILTERS, DEFAULT_API_PARAMS]

def exPages3 : List (List Row) :=
  [List.replicate 10 [("id", vint 1)], List.replicate 10 [("id", vint 2)], []]

def exStore9 : Store := [DEFAULT_Q_FILTERS, DEFAULT_API_PARAMS]

def exPages9 : List (List Row) := [[[("id", vint 1)]], []]

instance {e a : Type} [DecidableEq e] [DecidableEq a] : DecidableEq (Except e a) := fun x y =>
  match x, y with
  | Except.error u, Except.error v =>
    if h : u = v then Decidable.isTrue (by rw [h])
    else Decidable.isFalse (by intro hc; injection hc; exact h (by assumption))
  | Except.ok u, Except.ok v =>
    if h : u = v then Decidable.isTrue (by rw [h])
    else Decidable.isFalse (by intro hc; injection hc; exact h (by assumption))
  | Except.error u, Except.ok v => Decidable.isFalse (fun hc => Except.noConfusion hc)
  | Except.ok u, Except.error v => Decidable.isFalse (fun hc => Except.noConfusion hc)

def exC7items : List Row :=
  [[("id", vint 1), ("name", vstr "repo"), ("description", vstr "d"),
    ("created_at", vstr "2025-01-01T00:00:00Z"), ("updated_at", vstr "2025-01-02T00:00:00Z"),
    ("pushed_at", vstr "2025-01-03T00:00:00Z"), ("size", vnull),
    ("stargazers_count", vint 5), ("watchers_count", vint 5), ("language", vnull),
    ("forks", vint 1), ("watchers", vint 5), ("score", vint 1),
    ("archived", vbool false), ("disabled", vbool false), ("is_template", vbool false),
    ("owner", Value.dict [("login", Prim.str "alice"), ("type", Prim.str "User"),
      ("id", Prim.int 7)])]]

def exC7w : List Row :=
  [[("id", vint 1), ("name", vstr "repo"), ("description", vstr "d"),
    ("created_at", vstr "2025-01-01T00:00:00Z"), ("updated_at", vstr "2025-01-02T00:00:00Z"),
    ("pushed_at", vstr "2025-01-03T00:00:00Z"), ("size", vint 100),
    ("stargazers_count", vint 5), ("watchers_count", vint 5), ("language", vstr "Py"),
    ("forks", vint 1), ("watchers", vint 5), ("score", vint 1),
    ("archived", vbool false), ("disabled", vbool false), ("is_template", vbool false),
    ("owner", Value.dict [("login", Prim.str "alice"), ("type", Prim.str "User"),
      ("id", Prim.int 7)])],
   [("id", vint 2), ("name", vstr "repo"), ("description", vstr "d"),
    ("created_at", vstr "2025-01-01T00:00:00Z"), ("updated_at", vstr "2025-01-02T00:00:00Z"),
    ("pushed_at", vstr "2025-01-03T00:00:00Z"), ("size", vint 50),
    ("stargazers_count", vint 5), ("watchers_count", vint 5), ("language", vnull),
    ("forks", vint 1), ("watchers", vint 5), ("score", vint 1),
    ("archived", vbool false), ("disabled", vbool false), ("is_template", vbool false),
    ("owner", Value.dict [("login", Prim.str "alice"), ("type", Prim.str "User"),
      ("id", Prim.int 7)])]]

def exC7wOut : Frame :=
  { cols := ["id", "name", "description", "created_at", "updated_at", "pushed_at", "size",
      "stargazers_count", "watchers_count", "language", "forks", "watchers", "score",
      "user", "user_type", "user_id"],
    rows := [[("id", vint 1), ("name", vstr "repo"), ("description", vstr "d"),
      ("created_at", Value.prim (Prim.dt "2025-01-01T00:00:00Z")),
      ("updated_at", Value.prim (Prim.dt "2025-01-02T00:00:00Z")),
      ("pushed_at", Value.prim (Prim.dt "2025-01-03T00:00:00Z")),
      ("size", vint 100), ("stargazers_count", vint 5), ("watchers_count", vint 5),
      ("language", vstr "Py"), ("forks", vint 1), ("watchers", vint 5), ("score", vint 1),
      ("user", vstr "alice"), ("user_type", vstr "User"), ("user_id", vint 7)],
     [("id", vint 2), ("name", vstr "repo"), ("description", vstr "d"),
      ("created_at", Value.prim (Prim.dt "2025-01-01T00:00:00Z")),
      ("updated_at", Value.prim (Prim.dt "2025-01-02T00:00:00Z")),
      ("pushed_at", Value.prim (Prim.dt "2025-01-03T00:00:00Z")),
      ("size", vint 50), ("stargazers_count", vint 5),
      ("watchers_count", vint 5), ("language", vstr "Unknown"), ("forks", vint 1),
      ("watchers", vint 5), ("score", vint 1),
      ("user", vstr "alice"), ("user_type", vstr "User"), ("user_id", vint 7)]] }

def exC8items : List Row :=
  [[("id", vint 1), ("archived", vbool false), ("disabled", vbool false),
    ("is_template", vbool false),
    ("owner", Value.dict [("login", Prim.str "u"), ("type", Prim.str "User"),
      ("id", Prim.int 7)])],
   [("id", vint 2), ("archived", vbool true), ("disabled", vbool false),
    ("is_template", vbool false),
    ("owner", Value.dict [("login", Prim.str "w"), ("type", Prim.str "User"),
      ("id", Prim.int 8)])]]

def exC8w : List Row :=
  [[("id", vint 1), ("archived", vbool false), ("disabled", vbool false),
    ("is_template", vbool false),
    ("owner", Value.dict [("login", Prim.str "u"), ("type", Prim.str "User"),
      ("id", Prim.int 7)])]]

def exC8wOut : Frame :=
  { cols := ["id", "user", "user_type", "user_id"],
    rows := [[("id", vint 1), ("user", vstr "u"), ("user_type", vstr "User"),
      ("user_id", vint 7)]] }

/-! ## Helper lemmas -/

theorem foldl_append_clause (k : String) (items : List String) :
    ∀ acc : List String,
      items.foldl (fun acc2 item => acc2 ++ [k ++ ":" ++ item]) acc
        = acc ++ items.map (fun item => k ++ ":" ++ item) := by
  induction items with
  | nil => intro acc; simp
  | cons x xs ih => intro acc; simp [ih]

theorem buildFilterParts_eq (qf : List (String × PVal)) :
    ∀ acc, buildFilterParts qf acc = acc ++ qf.flatMap clauseOf := by
  induction qf with
  | nil => intro acc; simp [buildFilterParts]
  | cons kv rest ih =>
    intro acc
    rcases kv with ⟨k, v⟩
    cases v with
    | s w => simp [buildFilterParts, clauseOf, ih]
    | i n => simp [buildFilterParts, clauseOf, ih]
    | l items => simp [buildFilterParts, clauseOf, foldl_append_clause, ih]

theorem fetchPageGo_step (resps : Nat → Resp) (mr b retry fuel : Nat) (hf : 0 < fuel) :
    fetchPageGo resps mr b retry fuel =
      match resps retry with
      | Resp.ok Payload.notMapping => (FetchResult.items [], [])
      | Resp.ok Payload.missingItems => (FetchResult.items [], [])
      | Resp.ok (Payload.withItems l) => (FetchResult.items l, [])
      | Resp.httpError st =>
        if st = 422 then (FetchResult.items [], [])
        else if retry = mr then (FetchResult.raised st, [])
        else ((fetchPageGo resps mr b (retry + 1) (fuel - 1)).1,
              b ^ retry :: (fetchPageGo resps mr b (retry + 1) (fuel - 1)).2)
      | Resp.otherError => (FetchResult.items [], []) := by
  cases fuel with
  | zero => omega
  | succ f => rfl

theorem fetchPageGo_success (resps : Nat → Resp) (max_retries backoff n : Nat) (l : List Row)
    (sts : Nat → Nat)
    (herr : ∀ i, 1 ≤ i → i ≤ n → resps i = Resp.httpError (sts i))
    (h422 : ∀ i, 1 ≤ i → i ≤ n → sts i ≠ 422)
    (hok : resps (n + 1) = Resp.ok (Payload.withItems l))
    (hn : n + 1 ≤ max_retries) :
    ∀ fuel retry, 1 ≤ retry → retry + fuel = max_retries + 1 → retry ≤ n + 1 →
      (fetchPageGo resps max_retries backoff retry fuel).1 = FetchResult.items l := by
  intro fuel
  induction fuel with
  | zero => intro retry h1 h2 h3; omega
  | succ f ih =>
    intro retry h1 h2 h3
    rcases Nat.lt_or_ge retry (n + 1) with hlt | hge
    · have hr : retry ≤ n := by omega
      rw [fetchPageGo_step resps max_retries backoff retry (f + 1) (by omega),
        herr retry h1 hr]
      simp only
      rw [if_neg (h422 retry h1 hr), if_neg (show retry ≠ max_retries by omega)]
      exact ih (retry + 1) (by omega) (by omega) (by omega)
    · have heq : retry = n + 1 := by omega
      subst heq
      rw [fetchPageGo_step resps max_retries backoff (n + 1) (f + 1) (by omega), hok]

theorem fetchPageGo_exhaust (resps : Nat → Resp) (max_retries backoff n : Nat)
    (sts : Nat → Nat)
    (herr : ∀ i, 1 ≤ i → i ≤ n → resps i = Resp.httpError (sts i))
    (h422 : ∀ i, 1 ≤ i → i ≤ n → sts i ≠ 422)
    (hmax : 1 ≤ max_retries) (hn : max_retries ≤ n) :
    ∀ fuel retry, 1 ≤ retry → retry + fuel = max_retries + 1 → retry ≤ max_retries →
      (fetchPageGo resps max_retries backoff retry fuel).1
        = FetchResult.raised (sts max_retries) := by
  intro fuel
  induction fuel with
  | zero => intro retry h1 h2 h3; omega
  | succ f ih =>
    intro retry h1 h2 h3
    have hrn : retry ≤ n := le_trans h3 hn
    rw [fetchPageGo_step resps max_retries backoff retry (f + 1) (by omega),
      herr retry h1 hrn]
    simp only
    rw [if_neg (h422 retry h1 hrn)]
    by_cases hEq : retry = max_retries
    · subst hEq; rw [if_pos rfl]
    · rw [if_neg hEq]
      exact ih (retry + 1) (by omega) (by omega) (by omega)

/-! ## Claim C5 -/

/-- C5: api_query_builder returns the base URL, then ?q=, then the filter
clauses joined by +, then one ampersand, then the API params joined by
ampersands as key=value pairs; a list-valued filter key contributes one
key:value clause per list element in list order, a scalar-valued key
contributes exactly one clause. The function is a total Lean function, so
it is pure and never errors. -/
theorem api_query_builder_spec (base_url : String)
    (query_filters api_params : List (String × PVal)) :
    api_query_builder base_url query_filters api_params =
      base_url ++ "?q=" ++ String.intercalate "+" (query_filters.flatMap clauseOf) ++ "&" ++
        String.intercalate "&" (api_params.map (fun kv => kv.1 ++ "=" ++ pvalStr kv.2)) ∧
    (∀ k xs, clauseOf (k, PVal.l xs) = xs.map (fun item => k ++ ":" ++ item)) ∧
    (∀ k v, clauseOf (k, PVal.s v) = [k ++ ":" ++ v]) ∧
    (∀ k n, clauseOf (k, PVal.i n) = [k ++ ":" ++ toString n]) := by
  refine ⟨?_, fun k xs => rfl, fun k v => rfl, fun k n => rfl⟩
  simp only [api_query_builder, buildFilterParts_eq, List.nil_append]

/-! ## Claim C1 -/

/-- C1: when the first n attempts all hit retryable HTTP errors (any status
other than 422) and attempt n+1 would succeed with item list l, fetch_page
returns the items of the successful page if n is below max_retries, and
re-raises the HTTP error of the last attempt if n reaches max_retries
(for max_retries at least 1). -/
theorem fetch_page_retry_classification (resps : Nat → Resp) (max_retries backoff n : Nat)
    (l : List Row) (sts : Nat → Nat)
    (herr : ∀ i, 1 ≤ i → i ≤ n → resps i = Resp.httpError (sts i))
    (h422 : ∀ i, 1 ≤ i → i ≤ n → sts i ≠ 422)
    (hok : resps (n + 1) = Resp.ok (Payload.withItems l)) :
    (n < max_retries → (fetch_page resps max_retries backoff).1 = FetchResult.items l) ∧
    (1 ≤ max_retries → max_retries ≤ n →
      (fetch_page resps max_retries backoff).1 = FetchResult.raised (sts max_retries)) := by
  constructor
  · intro hlt
    exact fetchPageGo_success resps max_retries backoff n l sts herr h422 hok (by omega)
      max_retries 1 (by omega) (by omega) (by omega)
  · intro h1 h2
    exact fetchPageGo_exhaust resps max_retries backoff n sts herr h422 h1 h2
      max_retries 1 (by omega) (by omega) (by omega)

theorem fetch_page_retry_classification_witness :
    (∀ i, 1 ≤ i → i ≤ 2 → exResps1 i = Resp.httpError 500) ∧
    (∀ i, 1 ≤ i → i ≤ 2 → (500 : Nat) ≠ 422) ∧
    exResps1 3 = Resp.ok (Payload.withItems [[("id", vint 1)]]) ∧
    ((2 < 3 → (fetch_page exResps1 3 3).1 = FetchResult.items [[("id", vint 1)]]) ∧
     (1 ≤ 3 → 3 ≤ 2 → (fetch_page exResps1 3 3).1 = FetchResult.raised 500)) := by
  refine ⟨fun i h1 h2 => ?_, fun i h1 h2 => by omega, rfl,
    fetch_page_retry_classification exResps1 3 3 2 [[("id", vint 1)]] (fun _ => 500)
      (fun i h1 h2 => ?_) (fun i h1 h2 => by show (500 : Nat) ≠ 422; omega) rfl⟩
  · unfold exResps1; rw [if_pos h2]
  · unfold exResps1; rw [if_pos h2]

/-! ## Claim C2 -/

/-- C2: if the first attempt sees an HTTP 422 error, or a body that is not a
mapping, or a mapping without the items key, fetch_page returns an empty
item list at once: no exception is raised, the sleep list is empty, and the
result does not depend on what any later attempt would have returned (the
statement holds for every oracle agreeing on attempt 1). -/
theorem fetch_page_nonretryable_empty (resps : Nat → Resp) (max_retries backoff : Nat)
    (h : resps 1 = Resp.httpError 422 ∨ resps 1 = Resp.ok Payload.notMapping ∨
      resps 1 = Resp.ok Payload.missingItems) :
    fetch_page resps max_retries backoff = (FetchResult.items [], []) := by
  cases max_retries with
  | zero => rfl
  | succ m =>
    rw [fetch_page, fetchPageGo_step resps (m + 1) backoff 1 (m + 1) (by omega)]
    rcases h with h | h | h <;> rw [h] <;> simp

theorem fetch_page_nonretryable_empty_witness :
    (exResps2 1 = Resp.httpError 422 ∨ exResps2 1 = Resp.ok Payload.notMapping ∨
      exResps2 1 = Resp.ok Payload.missingItems) ∧
    fetch_page exResps2 3 3 = (FetchResult.items [], []) :=
  ⟨Or.inl rfl, fetch_page_nonretryable_empty exResps2 3 3 (Or.inl rfl)⟩

/-! ## Claim C4 -/

/-- C4 counterexample: with the default max_retries = 3 and backoff = 3, a
run in which every attempt fails with HTTP 500 exhausts all retries while
sleeping exactly [3, 9] seconds, not [3, 9, 27] as the claim states: the
third failed attempt raises immediately instead of sleeping 27 seconds. -/
theorem fetch_page_backoff_schedule_cex :
    fetch_page exResps4 3 3 = (FetchResult.raised 500, [3, 9]) ∧
    (fetch_page exResps4 3 3).2 ≠ [3, 9, 27] := by
  constructor
  · decide
  · decide

/-- C4 amended: with defaults max_retries = 3 and backoff = 3, the sleep
after the k-th failed retryable attempt is backoff ^ k = 3 ^ k seconds (the
code sleeps backoff ** retry), and the sleeps of a run exhausting all
retries are exactly [3, 9]: there are max_retries - 1 = 2 sleeps, because
the last failed attempt raises without sleeping. -/
theorem fetch_page_backoff_schedule (resps : Nat → Resp)
    (h : ∀ i, 1 ≤ i → i ≤ 3 → resps i = Resp.httpError 500) :
    fetch_page resps 3 3 = (FetchResult.raised 500, [3 ^ 1, 3 ^ 2]) := by
  have h1 := h 1 (by omega) (by omega)
  have h2 := h 2 (by omega) (by omega)
  have h3 := h 3 (by omega) (by omega)
  rw [fetch_page, fetchPageGo_step resps 3 3 1 3 (by omega), h1]
  simp only
  rw [if_neg (by decide), if_neg (by decide)]
  rw [fetchPageGo_step resps 3 3 2 (3 - 1) (by omega), h2]
  simp only
  rw [if_neg (by decide), if_neg (by decide)]
  rw [fetchPageGo_step resps 3 3 3 (3 - 1 - 1) (by omega), h3]
  simp

theorem fetch_page_backoff_schedule_witness :
    (∀ i, 1 ≤ i → i ≤ 3 → exResps4 i = Resp.httpError 500) ∧
    fetch_page exResps4 3 3 = (FetchResult.raised 500, [3 ^ 1, 3 ^ 2]) :=
  ⟨fun i h1 h2 => rfl, fetch_page_backoff_schedule exResps4 (fun i h1 h2 => rfl)⟩

/-! ## Store lemmas for fetch_one_date -/

theorem getD_append_left {α : Type} (l l2 : List α) (i : Nat) (d : α) (h : i < l.length) :
    (l ++ l2).getD i d = l.getD i d := by
  simp [List.getD, List.getElem?_append_left h]

theorem getD_set_ne {α : Type} (l : List α) (i j : Nat) (x : α) (d : α) (h : i ≠ j) :
    (l.set j x).getD i d = l.getD i d := by
  simp [List.getD, List.getElem?_set_ne (Ne.symm h)]

theorem stepStore_getD (st : Store) (aRef : Nat) (k : String) (v : PVal) (r : Nat)
    (hr : r < st.length) :
    (setItem (st ++ [st.getD aRef []]) st.length k v).getD r [] = st.getD r [] := by
  unfold setItem
  rw [getD_set_ne _ r st.length _ _ (by omega)]
  exact getD_append_left st _ r [] hr

theorem stepStore_length (st : Store) (aRef : Nat) (k : String) (v : PVal) :
    (setItem (st ++ [st.getD aRef []]) st.length k v).length = st.length + 1 := by
  simp [setItem]

theorem fetchOneDateLoop_frame (apRef qo : Nat) :
    ∀ (pages : List (List Row)) (st : Store) (page r : Nat), r < st.length →
      ((fetchOneDateLoop apRef qo st page pages).2.2.2).getD r [] = st.getD r [] := by
  intro pages
  induction pages with
  | nil =>
    intro st page r hr
    simp only [fetchOneDateLoop, copyDict]
    exact stepStore_getD st apRef _ _ r hr
  | cons p rest ih =>
    intro st page r hr
    simp only [fetchOneDateLoop, copyDict]
    by_cases hp : p = []
    · rw [if_pos hp]
      exact stepStore_getD st apRef _ _ r hr
    · rw [if_neg hp]
      simp only
      rw [ih _ (page + 1) r (by rw [stepStore_length]; omega)]
      exact stepStore_getD st apRef _ _ r hr

theorem fetchOneDateLoop_items (apRef qo : Nat) :
    ∀ (pages : List (List Row)) (st : Store) (page : Nat),
      (fetchOneDateLoop apRef qo st page pages).1
          = (pages.takeWhile (fun p => decide (p ≠ []))).flatten ∧
      (fetchOneDateLoop apRef qo st page pages).2.1
          = (pages.takeWhile (fun p => decide (p ≠ []))).length := by
  intro pages
  induction pages with
  | nil => intro st page; simp [fetchOneDateLoop]
  | cons p rest ih =>
    intro st page
    by_cases hp : p = []
    · subst hp
      simp [fetchOneDateLoop, List.takeWhile]
    · have hdec : (fun q => decide (q ≠ ([] : List Row))) p = true := by
        simp [hp]
      constructor
      · simp only [fetchOneDateLoop]
        rw [if_neg hp]
        simp only [List.takeWhile_cons, hdec]
        simp [(ih _ (page + 1)).1]
      · simp only [fetchOneDateLoop]
        rw [if_neg hp]
        simp only [List.takeWhile_cons, hdec]
        simp [(ih _ (page + 1)).2]

/-! ## Claim C3 -/

/-- C3: for any date and any page sequence containing an empty page,
fetch_one_date returns exactly the concatenation, in page order, of the
pages strictly before the first empty page, and performs exactly one
inter-page sleep per non-empty page consumed (the takeWhile prefix is the
run of non-empty pages before the first empty one; its length is the sleep
count). Termination is structural in the embedding. -/
theorem fetch_one_date_paginates (st0 : Store) (qfRef apRef : Nat) (date_value : String)
    (pages : List (List Row)) (h : [] ∈ pages) :
    (fetch_one_date st0 qfRef apRef date_value pages).1
        = (pages.takeWhile (fun p => decide (p ≠ []))).flatten ∧
    (fetch_one_date st0 qfRef apRef date_value pages).2.1
        = (pages.takeWhile (fun p => decide (p ≠ []))).length := by
  simp only [fetch_one_date, copyDict]
  exact fetchOneDateLoop_items _ _ pages _ 1

theorem fetch_one_date_paginates_witness :
    ([] ∈ exPages3) ∧
    ((fetch_one_date exStore3 0 1 "2025-01-01" exPages3).1
        = (exPages3.takeWhile (fun p => decide (p ≠ []))).flatten ∧
     (fetch_one_date exStore3 0 1 "2025-01-01" exPages3).2.1
        = (exPages3.takeWhile (fun p => decide (p ≠ []))).length) ∧
    (fetch_one_date exStore3 0 1 "2025-01-01" exPages3).1.length = 20 ∧
    (fetch_one_date exStore3 0 1 "2025-01-01" exPages3).1
        = List.replicate 10 [("id", vint 1)] ++ List.replicate 10 [("id", vint 2)] ∧
    (fetch_one_date exStore3 0 1 "2025-01-01" exPages3).2.1 = 2 :=
  ⟨by decide, fetch_one_date_paginates exStore3 0 1 "2025-01-01" exPages3 (by decide),
    by decide, by decide, by decide⟩

/-! ## Claim C9 -/

/-- C9: fetch_one_date operates on copies of the shared default
dictionaries: every dictionary already allocated before the call, in
particular DEFAULT_Q_FILTERS and DEFAULT_API_PARAMS themselves, is
unchanged in the final store, so the created and page keys set during the
run never leak into the defaults, across iterations or across calls. -/
theorem fetch_one_date_preserves_defaults (st0 : Store) (qfRef apRef : Nat)
    (date_value : String) (pages : List (List Row)) (r : Nat) (h : r < st0.length) :
    ((fetch_one_date st0 qfRef apRef date_value pages).2.2.2).getD r [] = st0.getD r [] := by
  simp only [fetch_one_date, copyDict]
  rw [fetchOneDateLoop_frame apRef st0.length pages _ 1 r (by rw [stepStore_length]; omega)]
  exact stepStore_getD st0 qfRef _ _ r h

theorem fetch_one_date_preserves_defaults_witness :
    (0 < exStore9.length ∧ 1 < exStore9.length) ∧
    ((fetch_one_date exStore9 0 1 "2025-01-01" exPages9).2.2.2).getD 0 []
        = exStore9.getD 0 [] ∧
    ((fetch_one_date exStore9 0 1 "2025-01-01" exPages9).2.2.2).getD 1 []
        = exStore9.getD 1 [] ∧
    (((fetch_one_date exStore9 0 1 "2025-01-01" exPages9).2.2.2).getD 0 []).lookup "created"
        = none ∧
    (((fetch_one_date exStore9 0 1 "2025-01-01" exPages9).2.2.2).getD 1 []).lookup "page"
        = none :=
  ⟨⟨by decide, by decide⟩,
    fetch_one_date_preserves_defaults exStore9 0 1 "2025-01-01" exPages9 0 (by decide),
    fetch_one_date_preserves_defaults exStore9 0 1 "2025-01-01" exPages9 1 (by decide),
    by decide, by decide⟩

/-! ## Row-level lemmas for the transformer -/

theorem getVal_setVal_self (r : Row) (k : String) (v : Value) :
    getVal (setVal r k v) k = v := by
  induction r with
  | nil => simp [setVal, getVal, List.lookup_cons]
  | cons kv rest ih =>
    rcases kv with ⟨k0, v0⟩
    by_cases h : k0 = k
    · subst h; simp [setVal, getVal, List.lookup_cons]
    · simp only [setVal, if_neg h, getVal, List.lookup_cons,
        beq_false_of_ne (Ne.symm h)]
      exact ih

theorem getVal_setVal_ne (r : Row) (k k2 : String) (v : Value) (h : k2 ≠ k) :
    getVal (setVal r k v) k2 = getVal r k2 := by
  induction r with
  | nil => simp [setVal, getVal, List.lookup_cons, beq_false_of_ne h]
  | cons kv rest ih =>
    rcases kv with ⟨k0, v0⟩
    by_cases h0 : k0 = k
    · subst h0
      simp [setVal, getVal, List.lookup_cons, beq_false_of_ne h]
    · by_cases h2 : k2 = k0
      · subst h2
        simp [setVal, if_neg h0, getVal, List.lookup_cons]
      · simp only [setVal, if_neg h0, getVal, List.lookup_cons,
          beq_false_of_ne h2]
        exact ih

theorem getVal_fillSizeRow_ne (x : Value) (r : Row) (k : String) (h : k ≠ "size") :
    getVal (fillSizeRow x r) k = getVal r k := by
  unfold fillSizeRow
  split
  · exact getVal_setVal_ne r "size" k x h
  · rfl

theorem getVal_fillLanguageRow_ne (r : Row) (k : String) (h : k ≠ "language") :
    getVal (fillLanguageRow r) k = getVal r k := by
  unfold fillLanguageRow
  split
  · exact getVal_setVal_ne r "language" k _ h
  · rfl

theorem fillLanguageRow_not_null (r : Row) : getVal (fillLanguageRow r) "language" ≠ vnull := by
  unfold fillLanguageRow
  split
  · rw [getVal_setVal_self]
    simp [vstr, vnull]
  · assumption

theorem getVal_dtRow_ne (r : Row) (k : String) (h1 : k ≠ "created_at") (h2 : k ≠ "updated_at")
    (h3 : k ≠ "pushed_at") : getVal (dtRow r) k = getVal r k := by
  unfold dtRow
  rw [getVal_setVal_ne _ _ _ _ h3, getVal_setVal_ne _ _ _ _ h2, getVal_setVal_ne _ _ _ _ h1]

theorem getVal_dtRow_created (r : Row) :
    getVal (dtRow r) "created_at" = to_datetime (getVal r "created_at") := by
  unfold dtRow
  rw [getVal_setVal_ne _ _ _ _ (by decide), getVal_setVal_ne _ _ _ _ (by decide),
    getVal_setVal_self]

theorem to_datetime_ne_null (v : Value) (h : v ≠ vnull) : to_datetime v ≠ vnull := by
  cases v with
  | prim p => cases p <;> simp_all [to_datetime, vnull]
  | dict d => simp [to_datetime, vnull]

theorem dropnaRow_spec (r : Row) :
    dropnaRow r = true ↔
      (getVal r "id" ≠ vnull ∧ getVal r "created_at" ≠ vnull ∧
        getVal r "user_id" ≠ vnull ∧ getVal r "user_type" ≠ vnull) := by
  simp [dropnaRow]

theorem meanOf_eq_null_iff (vs : List Value) :
    meanOf vs = vnull ↔ vs.filterMap toRatQ = [] := by
  unfold meanOf
  by_cases h : (vs.filterMap toRatQ).isEmpty
  · rw [if_pos h]
    simp only [List.isEmpty_iff] at h
    simp [h]
  · rw [if_neg h]
    simp only [List.isEmpty_iff] at h
    simp [h, vnull]

/-! ## Deduplication lemmas -/

theorem dedupeById_pairwise (rows : List Row) :
    ∀ seen : List Value,
      (dedupeById rows seen).Pairwise (fun a b => getVal a "id" ≠ getVal b "id") ∧
      ∀ x ∈ dedupeById rows seen, ¬ getVal x "id" ∈ seen := by
  induction rows with
  | nil => intro seen; simp [dedupeById]
  | cons r rest ih =>
    intro seen
    by_cases h : getVal r "id" ∈ seen
    · simp only [dedupeById, if_pos h]
      exact ih seen
    · simp only [dedupeById, if_neg h]
      obtain ⟨hp, hs⟩ := ih (getVal r "id" :: seen)
      refine ⟨List.Pairwise.cons ?_ hp, ?_⟩
      · intro b hb
        have hnb := hs b hb
        intro hEq
        exact hnb (by rw [← hEq]; exact List.mem_cons_self _ _)
      · intro x hx
        rcases List.mem_cons.mp hx with hx1 | hx2
        · subst hx1; exact h
        · intro hmem
          exact hs x hx2 (List.mem_cons_of_mem _ hmem)

theorem dedupeById_filter_eq (rows : List Row) :
    ∀ (seen : List Value) (v : Value),
      (dedupeById rows seen).filter (fun r => decide (getVal r "id" = v))
        = if v ∈ seen then []
          else (rows.filter (fun r => decide (getVal r "id" = v))).take 1 := by
  induction rows with
  | nil => intro seen v; simp [dedupeById]
  | cons r rest ih =>
    intro seen v
    by_cases hmem : getVal r "id" ∈ seen
    · simp only [dedupeById, if_pos hmem]
      rw [ih seen v]
      by_cases hv : getVal r "id" = v
      · rw [if_pos (hv ▸ hmem), if_pos (hv ▸ hmem)]
      · rw [List.filter_cons_of_neg (by simpa using hv)]
    · simp only [dedupeById, if_neg hmem]
      by_cases hv : getVal r "id" = v
      · rw [List.filter_cons_of_pos (by simpa using hv),
          List.filter_cons_of_pos (by simpa using hv)]
        rw [ih (getVal r "id" :: seen) v]
        rw [if_pos (by rw [hv]; exact List.mem_cons_self _ _)]
        rw [if_neg (hv ▸ hmem)]
        rfl
      · rw [List.filter_cons_of_neg (by simpa using hv),
          List.filter_cons_of_neg (by simpa using hv)]
        rw [ih (getVal r "id" :: seen) v]
        by_cases hseen : v ∈ seen
        · rw [if_pos (List.mem_cons_of_mem _ hseen), if_pos hseen]
        · rw [if_neg ?_, if_neg hseen]
          intro hc
          rcases List.mem_cons.mp hc with hc1 | hc2
          · exact hv hc1.symm
          · exact hseen hc2

/-! ## Size-backfill lemma -/

theorem filterMap_nil_forall {α β : Type} (f : α → Option β) :
    ∀ l : List α, l.filterMap f = [] → ∀ a ∈ l, f a = none := by
  intro l
  induction l with
  | nil => simp
  | cons x xs ih =>
    intro h a ha
    rw [List.filterMap_cons] at h
    cases hfx : f x with
    | some b => rw [hfx] at h; simp at h
    | none =>
      rw [hfx] at h
      rcases List.mem_cons.mp ha with rfl | ha2
      · exact hfx
      · exact ih h a ha2

theorem fillSize_not_null (rows : List Row)
    (hx : ∃ x ∈ fillSize rows, (toRatQ (getVal x "size")).isSome) :
    ∀ x ∈ fillSize rows, getVal x "size" ≠ vnull := by
  by_cases hnull : meanOf ((fillSizeGroup rows).map (fun r2 => getVal r2 "size")) = vnull
  · exfalso
    obtain ⟨rf, hrf, hsome⟩ := hx
    unfold fillSize at hrf
    obtain ⟨r0, hr0, heq⟩ := List.mem_map.mp hrf
    have hfm := (meanOf_eq_null_iff _).mp hnull
    have hnone : toRatQ (getVal r0 "size") = none :=
      filterMap_nil_forall toRatQ _ hfm _ (List.mem_map_of_mem _ hr0)
    rw [← heq] at hsome
    unfold fillSizeRow at hsome
    split at hsome
    · rw [getVal_setVal_self, hnull] at hsome
      simp [toRatQ, vnull] at hsome
    · rw [hnone] at hsome
      simp at hsome
  · intro x hxm
    unfold fillSize at hxm
    obtain ⟨r0, hr0, heq⟩ := List.mem_map.mp hxm
    rw [← heq]
    unfold fillSizeRow
    split
    · rw [getVal_setVal_self]
      exact hnull
    · assumption

/-! ## Frame-level lemmas for the transformer -/

theorem handle_nulls_ok (df fr2 : Frame) (h : handle_nulls_and_dupes df = Except.ok fr2) :
    fr2 = { df with rows := fillLanguage (fillSize ((dedupeById df.rows []).filter dropnaRow)) } := by
  unfold handle_nulls_and_dupes at h
  repeat split at h
  all_goals first
    | (injection h with h2; exact h2.symm)
    | simp at h

theorem filter_columns_ok_cols (fr fr2 : Frame) (h : filter_columns fr = Except.ok fr2) :
    fr2.cols = required_cols.filter
      (fun c => decide (c ∈ fr.cols ++ (["user", "user_type", "user_id"].filter
        (fun c2 => decide (¬ c2 ∈ fr.cols))))) := by
  unfold filter_columns at h
  repeat split at h
  all_goals first
    | (injection h with h2; rw [← h2])
    | simp at h

theorem filter_columns_ok_user_mem (fr fr2 : Frame) (h : filter_columns fr = Except.ok fr2) :
    "user" ∈ fr2.cols := by
  rw [filter_columns_ok_cols fr fr2 h]
  rw [List.mem_filter]
  refine ⟨by decide, ?_⟩
  rw [decide_eq_true_eq, List.mem_append]
  by_cases hu : "user" ∈ fr.cols
  · exact Or.inl hu
  · refine Or.inr ?_
    rw [List.mem_filter]
    exact ⟨by decide, by simpa using hu⟩

theorem datetime_formatter_ok (df fr : Frame) (h : datetime_columns_formatter df = Except.ok fr) :
    fr.rows = df.rows ∨ fr.rows = df.rows.map dtRow := by
  unfold datetime_columns_formatter at h
  by_cases h0 : isEmptyF df = true
  · rw [if_pos h0] at h
    injection h with h2
    rw [← h2]
    exact Or.inl rfl
  · rw [if_neg h0] at h
    by_cases hc : "created_at" ∈ df.cols
    · rw [if_pos hc] at h
      by_cases hu : "updated_at" ∈ df.cols
      · rw [if_pos hu] at h
        by_cases hp : "pushed_at" ∈ df.cols
        · rw [if_pos hp] at h
          injection h with h2
          rw [← h2]
          exact Or.inr rfl
        · rw [if_neg hp] at h; simp at h
      · rw [if_neg hu] at h; simp at h
    · rw [if_neg hc] at h; simp at h

theorem filter_idem {α : Type} (p : α → Bool) (l : List α) :
    (l.filter p).filter p = l.filter p := by
  induction l with
  | nil => rfl
  | cons x xs ih =>
    by_cases hx : p x
    · rw [List.filter_cons_of_pos hx, List.filter_cons_of_pos hx, ih]
    · rw [List.filter_cons_of_neg (by simpa using hx), ih]

theorem transform_ok_cases (items_list : List Row) (fr : Frame)
    (h : transform items_list = Except.ok fr) :
    ∃ df_raw, filter_columns (mkFrame items_list) = Except.ok df_raw ∧
      ((isEmptyF df_raw = true ∧ fr = df_raw) ∨
       (isEmptyF df_raw = false ∧ ∃ df2, handle_nulls_and_dupes df_raw = Except.ok df2 ∧
         datetime_columns_formatter df2 = Except.ok fr)) := by
  unfold transform at h
  cases hfc : filter_columns (mkFrame items_list) with
  | error e =>
    rw [hfc] at h
    exact absurd h (by simp)
  | ok df_raw =>
    rw [hfc] at h
    refine ⟨df_raw, rfl, ?_⟩
    by_cases hemp : isEmptyF df_raw = true
    · left
      refine ⟨hemp, ?_⟩
      have h2 : (Except.ok df_raw : Except String Frame) = Except.ok fr := by
        rw [← h]
        simp [hemp]
      injection h2 with h3
      exact h3.symm
    · right
      refine ⟨by simpa using hemp, ?_⟩
      cases hnd : handle_nulls_and_dupes df_raw with
      | error e =>
        have h2 : (Except.error e : Except String Frame) = Except.ok fr := by
          rw [← h]
          simp [hemp, hnd]
        exact absurd h2 (by simp)
      | ok df2 =>
        refine ⟨df2, rfl, ?_⟩
        rw [← h]
        simp [hemp, hnd]

/-! ## The cleaned-rows pipeline -/

theorem pipeline_fields (rows0 : List Row) :
    ∀ x ∈ fillLanguage (fillSize ((dedupeById rows0 []).filter dropnaRow)),
      getVal x "id" ≠ vnull ∧ getVal x "created_at" ≠ vnull ∧
      getVal x "user_id" ≠ vnull ∧ getVal x "user_type" ≠ vnull ∧
      getVal x "language" ≠ vnull := by
  intro x hx
  unfold fillLanguage at hx
  obtain ⟨y, hy, rfl⟩ := List.mem_map.mp hx
  unfold fillSize at hy
  obtain ⟨z, hz, rfl⟩ := List.mem_map.mp hy
  unfold fillSizeGroup at hz
  obtain ⟨w, hw, rfl⟩ := List.mem_map.mp hz
  have hfields := (dropnaRow_spec w).mp (List.mem_filter.mp hw).2
  refine ⟨?_, ?_, ?_, ?_, fillLanguageRow_not_null _⟩
  · rw [getVal_fillLanguageRow_ne _ _ (by decide), getVal_fillSizeRow_ne _ _ _ (by decide),
      getVal_fillSizeRow_ne _ _ _ (by decide)]
    exact hfields.1
  · rw [getVal_fillLanguageRow_ne _ _ (by decide), getVal_fillSizeRow_ne _ _ _ (by decide),
      getVal_fillSizeRow_ne _ _ _ (by decide)]
    exact hfields.2.1
  · rw [getVal_fillLanguageRow_ne _ _ (by decide), getVal_fillSizeRow_ne _ _ _ (by decide),
      getVal_fillSizeRow_ne _ _ _ (by decide)]
    exact hfields.2.2.1
  · rw [getVal_fillLanguageRow_ne _ _ (by decide), getVal_fillSizeRow_ne _ _ _ (by decide),
      getVal_fillSizeRow_ne _ _ _ (by decide)]
    exact hfields.2.2.2

theorem pairwise_ne_map (l : List Row) (f : Row → Row)
    (hf : ∀ r, getVal (f r) "id" = getVal r "id")
    (h : l.Pairwise (fun a b => getVal a "id" ≠ getVal b "id")) :
    (l.map f).Pairwise (fun a b => getVal a "id" ≠ getVal b "id") :=
  h.map f (fun a b hab => by rw [hf, hf]; exact hab)

theorem pipeline_pairwise (rows0 : List Row) :
    (fillLanguage (fillSize ((dedupeById rows0 []).filter dropnaRow))).Pairwise
      (fun a b => getVal a "id" ≠ getVal b "id") := by
  have hkept : ((dedupeById rows0 []).filter dropnaRow).Pairwise
      (fun a b => getVal a "id" ≠ getVal b "id") :=
    (dedupeById_pairwise rows0 []).1.filter dropnaRow
  unfold fillLanguage fillSize fillSizeGroup
  exact pairwise_ne_map _ _ (fun r => getVal_fillLanguageRow_ne _ _ (by decide))
    (pairwise_ne_map _ _ (fun r => getVal_fillSizeRow_ne _ _ _ (by decide))
      (pairwise_ne_map _ _ (fun r => getVal_fillSizeRow_ne _ _ _ (by decide)) hkept))

theorem pipeline_size (rows0 : List Row)
    (hex : ∃ x ∈ fillLanguage (fillSize ((dedupeById rows0 []).filter dropnaRow)),
      (toRatQ (getVal x "size")).isSome) :
    ∀ x ∈ fillLanguage (fillSize ((dedupeById rows0 []).filter dropnaRow)),
      getVal x "size" ≠ vnull := by
  obtain ⟨x, hx, hsome⟩ := hex
  unfold fillLanguage at hx
  obtain ⟨y, hy, rfl⟩ := List.mem_map.mp hx
  rw [getVal_fillLanguageRow_ne _ _ (by decide)] at hsome
  have hall := fillSize_not_null _ ⟨y, hy, hsome⟩
  intro z hz
  unfold fillLanguage at hz
  obtain ⟨w, hw, rfl⟩ := List.mem_map.mp hz
  rw [getVal_fillLanguageRow_ne _ _ (by decide)]
  exact hall w hw

/-! ## Claim C7 -/

/-- C7 amended: every table that transform returns satisfies: id,
created_at, user_id, user_type and language are non-null in every row, and
no two rows share an id value; size is non-null in every row PROVIDED at
least one row carries a numeric size — when no surviving row has a numeric
size, both backfills fill with NaN (the mean of an empty selection) and
size remains null, which is the one point where the original claim fails. -/
theorem transform_output_invariants (items_list : List Row) (fr : Frame)
    (h : transform items_list = Except.ok fr) :
    (∀ x ∈ fr.rows,
      getVal x "id" ≠ vnull ∧ getVal x "created_at" ≠ vnull ∧
      getVal x "user_id" ≠ vnull ∧ getVal x "user_type" ≠ vnull ∧
      getVal x "language" ≠ vnull) ∧
    fr.rows.Pairwise (fun a b => getVal a "id" ≠ getVal b "id") ∧
    ((∃ x ∈ fr.rows, (toRatQ (getVal x "size")).isSome) →
      ∀ x ∈ fr.rows, getVal x "size" ≠ vnull) := by
  obtain ⟨df_raw, hfc, hcase⟩ := transform_ok_cases items_list fr h
  rcases hcase with ⟨hemp, rfl⟩ | ⟨hemp, df2, hnd, hdt⟩
  · have huser := filter_columns_ok_user_mem _ _ hfc
    have hrows : fr.rows = [] := by
      have hor : fr.rows.isEmpty = true ∨ fr.cols.isEmpty = true := by
        simpa [isEmptyF] using hemp
      rcases hor with h1 | h1
      · exact List.isEmpty_iff.mp h1
      · exact absurd huser (by rw [List.isEmpty_iff.mp h1]; exact List.not_mem_nil _)
    refine ⟨?_, ?_, ?_⟩
    · intro x hx; rw [hrows] at hx; exact absurd hx (List.not_mem_nil _)
    · rw [hrows]; exact List.Pairwise.nil
    · rintro ⟨x, hx, -⟩
      rw [hrows] at hx
      exact absurd hx (List.not_mem_nil _)
  · have hrw : df2.rows
        = fillLanguage (fillSize ((dedupeById df_raw.rows []).filter dropnaRow)) := by
      rw [handle_nulls_ok _ _ hnd]
    rcases datetime_formatter_ok _ _ hdt with hfr | hfr
    · rw [hfr, hrw]
      exact ⟨pipeline_fields _, pipeline_pairwise _, fun hex => pipeline_size _ hex⟩
    · rw [hfr, hrw]
      refine ⟨?_, ?_, ?_⟩
      · intro x hx
        obtain ⟨y, hy, rfl⟩ := List.mem_map.mp hx
        obtain ⟨h1, h2, h3, h4, h5⟩ := pipeline_fields _ y hy
        refine ⟨?_, ?_, ?_, ?_, ?_⟩
        · rw [getVal_dtRow_ne _ _ (by decide) (by decide) (by decide)]; exact h1
        · rw [getVal_dtRow_created]; exact to_datetime_ne_null _ h2
        · rw [getVal_dtRow_ne _ _ (by decide) (by decide) (by decide)]; exact h3
        · rw [getVal_dtRow_ne _ _ (by decide) (by decide) (by decide)]; exact h4
        · rw [getVal_dtRow_ne _ _ (by decide) (by decide) (by decide)]; exact h5
      · exact pairwise_ne_map _ _
          (fun r => getVal_dtRow_ne _ _ (by decide) (by decide) (by decide))
          (pipeline_pairwise _)
      · rintro ⟨x, hx, hsome⟩
        obtain ⟨y, hy, rfl⟩ := List.mem_map.mp hx
        rw [getVal_dtRow_ne _ _ (by decide) (by decide) (by decide)] at hsome
        intro z hz
        obtain ⟨w, hw, rfl⟩ := List.mem_map.mp hz
        rw [getVal_dtRow_ne _ _ (by decide) (by decide) (by decide)]
        exact pipeline_size _ ⟨y, hy, hsome⟩ w hw

/-- C7 counterexample: a valid single-record batch whose size is null (and
whose user therefore has no other sizes to average) passes the whole
transform successfully, yet the returned table still has a null size in its
only row: the size backfill does not establish non-nullness when every
surviving size is null, refuting the unconditional claim. -/
theorem transform_size_backfill_cex :
    (transform exC7items).toOption.isSome = true ∧
    (match transform exC7items with
     | Except.ok fr2 => fr2.rows.map (fun r => getVal r "size")
     | Except.error _ => []) = [vnull] := by
  constructor
  · decide
  · decide

theorem transform_output_invariants_witness :
    transform exC7w = Except.ok exC7wOut ∧
    ((∀ x ∈ exC7wOut.rows,
      getVal x "id" ≠ vnull ∧ getVal x "created_at" ≠ vnull ∧
      getVal x "user_id" ≠ vnull ∧ getVal x "user_type" ≠ vnull ∧
      getVal x "language" ≠ vnull) ∧
    exC7wOut.rows.Pairwise (fun a b => getVal a "id" ≠ getVal b "id") ∧
    ((∃ x ∈ exC7wOut.rows, (toRatQ (getVal x "size")).isSome) →
      ∀ x ∈ exC7wOut.rows, getVal x "size" ≠ vnull)) :=
  ⟨by decide, transform_output_invariants exC7w exC7wOut (by decide)⟩

/-! ## Claim C8 -/

/-- C8 counterexample: filter_columns applied to its own output does not
yield the same row set: the output frame no longer carries the archived,
disabled, is_template and owner columns (they are projected away), so
re-applying filter_columns raises a KeyError on the archived column instead
of returning anything, refuting the composition equation as stated. -/
theorem filter_columns_reapply_cex :
    (filter_columns (mkFrame exC8items)).toOption.isSome = true ∧
    (filter_columns (mkFrame exC8items)).bind filter_columns
      = Except.error "KeyError: archived" ∧
    (filter_columns (mkFrame exC8items)).bind filter_columns
      ≠ filter_columns (mkFrame exC8items) := by
  refine ⟨by decide, by decide, by decide⟩

/-- C8 amended: the row-selection step of filter_columns is idempotent on
row sets (re-filtering the already-filtered rows changes nothing, which is
the sound core of the claim), but the function itself cannot be re-applied
to its own output: whenever filter_columns succeeds, its output frame lacks
the archived column, and filter_columns of that output is a KeyError
rather than the same row set. -/
theorem filter_columns_reapply (fr fr2 : Frame) (h : filter_columns fr = Except.ok fr2) :
    (fr.rows.filter passFlags).filter passFlags = fr.rows.filter passFlags ∧
    filter_columns fr2 = Except.error "KeyError: archived" := by
  constructor
  · exact filter_idem passFlags fr.rows
  · have hcols := filter_columns_ok_cols fr fr2 h
    have harch : ¬ "archived" ∈ fr2.cols := by
      rw [hcols]
      intro hmem
      have hreq := (List.mem_filter.mp hmem).1
      simp [required_cols] at hreq
    unfold filter_columns
    rw [if_neg harch]

theorem filter_columns_reapply_witness :
    filter_columns (mkFrame exC8w) = Except.ok exC8wOut ∧
    (((mkFrame exC8w).rows.filter passFlags).filter passFlags
        = (mkFrame exC8w).rows.filter passFlags ∧
      filter_columns exC8wOut = Except.error "KeyError: archived") :=
  ⟨by decide, filter_columns_reapply (mkFrame exC8w) exC8wOut (by decide)⟩

/-! ## Claim C10 -/

/-- C10: drop_duplicates on id with the default keep=first, as embedded by
dedupeById (the deduplication step of handle_nulls_and_dupes inside
transform), keeps exactly the first row carrying each id value, in input
order: for every id value, restricting the deduplicated rows to that id
gives precisely the first row of the input restricted to that id. Rows
reach this step in input order (the flag filter of filter_columns preserves
relative order), so the earliest occurrence in the original batch wins. -/
theorem dedupeById_keeps_first (rows : List Row) (v : Value) :
    (dedupeById rows []).filter (fun r => decide (getVal r "id" = v))
      = (rows.filter (fun r => decide (getVal r "id" = v))).take 1 := by
  have h := dedupeById_filter_eq rows [] v
  simpa using h

/-! ## Claim C6 -/

theorem full_etl_aux_spec (extract : String → List Row) (transformF : List Row → Frame) :
    ∀ dates : List String,
      (full_etl_aux extract transformF dates).1
          = (dates.map extract).filter (fun b => decide (b ≠ [])) ∧
      (full_etl_aux extract transformF dates).2
          = (((dates.map extract).filter (fun b => decide (b ≠ []))).map transformF).filter
              (fun f => !(isEmptyF f)) := by
  intro dates
  induction dates with
  | nil => exact ⟨rfl, rfl⟩
  | cons d rest ih =>
    by_cases hb : extract d = []
    · constructor
      · simp only [full_etl_aux, if_pos hb, List.map_cons]
        rw [List.filter_cons_of_neg (by simp [hb])]
        exact ih.1
      · simp only [full_etl_aux, if_pos hb, List.map_cons]
        rw [List.filter_cons_of_neg (by simp [hb])]
        exact ih.2
    · constructor
      · simp only [full_etl_aux, if_neg hb, List.map_cons]
        rw [List.filter_cons_of_pos (by simp [hb])]
        simpa using ih.1
      · simp only [full_etl_aux, if_neg hb, List.map_cons]
        rw [List.filter_cons_of_pos (by simp [hb]), List.map_cons]
        by_cases hdf : isEmptyF (transformF (extract d)) = true
        · rw [List.filter_cons_of_neg (by simp [hdf])]
          simpa [hdf] using ih.2
        · rw [List.filter_cons_of_pos (by simp at hdf; simp [hdf])]
          simp only [hdf, if_neg]
          simpa [hdf] using ih.2

theorem concatFrames_not_empty (f : Frame) (rest : List Frame)
    (hf : isEmptyF f = false) :
    isEmptyF (concatFrames (f :: rest)) = false := by
  unfold isEmptyF at hf
  rw [Bool.or_eq_false_iff] at hf
  obtain ⟨hrows, hcols⟩ := hf
  unfold isEmptyF concatFrames
  rw [Bool.or_eq_false_iff]
  constructor
  · rcases hr : f.rows with _ | ⟨r, rs⟩
    · rw [hr] at hrows; simp at hrows
    · simp [List.flatMap_cons, hr]
  · rcases hc : f.cols with _ | ⟨c, cs⟩
    · rw [hc] at hcols; simp at hcols
    · simp [List.flatMap_cons, hc, dedupFirst]

/-- C6: full_etl hands the Transformer exactly the non-empty extracted
batches, in date order (dates with an empty batch never reach the
Transformer); and it invokes the Loader exactly once, with the
concatenation of the non-empty cleaned per-date fragments in date order,
when at least one fragment is non-empty, and zero times when none is. -/
theorem full_etl_spec (extract : String → List Row) (transformF : List Row → Frame)
    (fetch_dates : List String) :
    (full_etl extract transformF fetch_dates).1 = extractedBatches extract fetch_dates ∧
    (full_etl extract transformF fetch_dates).2 =
      (if cleanedFrags extract transformF fetch_dates = [] then []
       else [concatFrames (cleanedFrags extract transformF fetch_dates)]) := by
  have haux := full_etl_aux_spec extract transformF fetch_dates
  have hcf : cleanedFrags extract transformF fetch_dates
      = (full_etl_aux extract transformF fetch_dates).2 := by
    unfold cleanedFrags extractedBatches
    exact haux.2.symm
  constructor
  · unfold full_etl
    dsimp only
    split
    · simpa [extractedBatches] using haux.1
    · split
      · simpa [extractedBatches] using haux.1
      · simpa [extractedBatches] using haux.1
  · unfold full_etl
    dsimp only
    by_cases h2 : (full_etl_aux extract transformF fetch_dates).2 = []
    · rw [if_pos h2, if_pos (hcf.trans h2)]
    · have hne : isEmptyF (concatFrames (full_etl_aux extract transformF fetch_dates).2)
          = false := by
        rcases hx : (full_etl_aux extract transformF fetch_dates).2 with _ | ⟨f, restf⟩
        · exact absurd hx h2
        · apply concatFrames_not_empty
          have hfmem : f ∈ (full_etl_aux extract transformF fetch_dates).2 := by
            rw [hx]; exact List.mem_cons_self _ _
          rw [haux.2] at hfmem
          have hmf := List.mem_filter.mp hfmem
          simpa using hmf.2
      have h3 : ¬ cleanedFrags extract transformF fetch_dates = [] := by
        rw [hcf]; exact h2
      rw [if_neg h2, if_neg (by simp [hne]), if_neg h3]
      dsimp only
      rw [hcf]
